import Mathlib

/-!
Verification of NebuLight (src/nebulight.py): a shallow embedding of the
job store, the claim-and-process operation `_pull_and_process`, the bulk
status rewrite `_change_status`, and the worker loop `start`, together
with theorems settling the specification's claims about them.

The jobs table is modelled as a list of rows in primary-key (insertion)
order, which is the order in which the SQLite table scan behind
`SELECT * FROM jobs` yields rows.
-/

namespace NebuLight

/-- Job status constants (nebulight.py lines 33-37). -/
inductive Status where
  | queued
  | processing
  | done
  | failed
  | hold
deriving DecidableEq

/-- ALL (nebulight.py line 38): the list of the five statuses. -/
def ALL : List Status :=
  [Status.queued, Status.processing, Status.done, Status.failed, Status.hold]

/-- A row of the `jobs` table (schema: line 49). `host` is a nullable column. -/
structure Job where
  job_id : Nat
  cmd : String
  status : Status
  tries : Nat
  host : Option String
deriving DecidableEq

/-- The jobs table: rows in primary-key (insertion) order. -/
abbrev Store := List Job

/-- Result of the subprocess collaborator: a process exit code, or an
OS-level launch failure (`OSError` from `Popen`, lines 102/117). -/
inductive RunResult where
  | exit (rc : Int)
  | oserror
deriving DecidableEq

/-- Lines 77-79: `SELECT * FROM jobs WHERE status='queued'` followed by
`fetchone()`, which yields the first row of the scan or nothing. -/
def fetchQueued (s : Store) : Option Job :=
  List.find? (fun j => j.status = Status.queued) s

/-- Lines 88, 113, 122: `UPDATE jobs SET status=? WHERE job_id=?`. -/
def updateStatus (s : Store) (id : Nat) (st : Status) : Store :=
  s.map fun j => if j.job_id = id then { j with status := st } else j

/-- Line 95: `UPDATE jobs SET status='processing', tries=?, host=? WHERE job_id=?`. -/
def claimUpdate (s : Store) (id : Nat) (newTries : Nat) (h : String) : Store :=
  s.map fun j =>
    if j.job_id = id then
      { j with status := Status.processing, tries := newTries, host := some h }
    else j

/-- Line 92: the host stamp `"{}:{}".format(_host(), gpu_id)`. -/
def hostStamp (hostname gpuId : String) : String :=
  hostname ++ ":" ++ gpuId

/-- Observable actions of `_pull_and_process`: the status writes it issues
against the store and the execution of the job's command. -/
inductive Event where
  | markFailed (id : Nat)
  | claimed (id : Nat) (tries : Nat) (host : String)
  | ran (cmd : String) (res : RunResult)
  | markDone (id : Nat)
  | requeued (id : Nat)
deriving DecidableEq

/-- Lines 75-123, `_pull_and_process`: fetch the first QUEUED row; if its
`tries` already reached `max_failures`, write FAILED and stop (lines 85-90);
otherwise claim it (status PROCESSING, tries+1, host stamped, line 95), run
the command, and write DONE on exit code 0 (lines 111-116) or QUEUED on any
other outcome, including an OS launch failure where `rc` keeps its initial
value 1 (lines 100, 117-123). Returns the new store and the event trace. -/
def pullAndProcessT (maxFailures : Nat) (host : String) (run : String → RunResult)
    (s : Store) : Store × List Event :=
  match fetchQueued s with
  | none => (s, [])
  | some j =>
    if maxFailures ≤ j.tries then
      (updateStatus s j.job_id Status.failed, [Event.markFailed j.job_id])
    else
      let s1 := claimUpdate s j.job_id (j.tries + 1) host
      let r := run j.cmd
      if r = RunResult.exit 0 then
        (updateStatus s1 j.job_id Status.done,
         [Event.claimed j.job_id (j.tries + 1) host, Event.ran j.cmd r,
          Event.markDone j.job_id])
      else
        (updateStatus s1 j.job_id Status.queued,
         [Event.claimed j.job_id (j.tries + 1) host, Event.ran j.cmd r,
          Event.requeued j.job_id])

/-- The store produced by `_pull_and_process`. -/
def pullAndProcess (maxFailures : Nat) (host : String) (run : String → RunResult)
    (s : Store) : Store :=
  (pullAndProcessT maxFailures host run s).1

/-- Lines 151-152: `UPDATE jobs SET status='mode', tries=0 WHERE status IN selector`. -/
def changeStatusUpdate (filter : List Status) (mode : Status) (s : Store) : Store :=
  s.map fun j =>
    if j.status ∈ filter then { j with status := mode, tries := 0 } else j

/-- Python's `str.lower()` on the prompt answer (line 149), modelled
character-wise; it agrees with `str.lower()` on ASCII answers. -/
def pyLower (s : String) : String :=
  String.mk (s.data.map Char.toLower)

/-- Lines 147-153: the bulk rewrite runs only when the prompt answer,
lowercased, equals `yes` (`confirm.lower() == 'yes'`); otherwise the store
is left as it is. -/
def changeStatus (answer : String) (filter : List Status) (mode : Status)
    (s : Store) : Store :=
  if pyLower answer = "yes" then changeStatusUpdate filter mode s else s

/-- The filter-flag attributes carried by the argparse namespace reaching
`_change_status`. The `queue` subparser (lines 371-377) defines `--all`,
`--done`, `--failed`, `--hold` and `--processing` but no `--queued`
argument, while the `hold` subparser (lines 379-386) defines all six, so
the `queued` attribute may be absent: it is modelled as an `Option Bool`,
with `none` meaning the attribute does not exist on the namespace. -/
structure ChangeArgs where
  all : Bool
  done : Bool
  failed : Bool
  hold : Bool
  processing : Bool
  queued : Option Bool
deriving DecidableEq

/-- Lines 129-143: the selector chain of `_change_status`. Reading a flag
that the invoking subcommand never defined raises `AttributeError` in
Python, modelled by `none`; otherwise the computed status filter is
returned. The final `else` branch falls back to ALL. -/
def computeSelector (a : ChangeArgs) : Option (List Status) :=
  if a.all then some ALL
  else if a.done then some [Status.done]
  else if a.failed then some [Status.failed]
  else if a.hold then some [Status.hold]
  else if a.processing then some [Status.processing]
  else
    match a.queued with
    | none => none
    | some q => if q then some [Status.queued] else some ALL

/-- The argparse namespace produced by `nebulight.py queue` with no filter
flag: all defined flags false, and no `queued` attribute at all. -/
def queueCmdNoFlags : ChangeArgs :=
  { all := false, done := false, failed := false, hold := false,
    processing := false, queued := none }

/-- The argparse namespace produced by `nebulight.py hold` with no filter
flag: all six flags defined and false. -/
def holdCmdNoFlags : ChangeArgs :=
  { all := false, done := false, failed := false, hold := false,
    processing := false, queued := some false }

/-- Lines 63-68: count of rows with status QUEUED. -/
def countQueued (s : Store) : Nat :=
  (s.filter fun j => j.status = Status.queued).length

/-- Line 39: IDLE_CHECK_INTERVAL_MIN = 0.1 minutes, i.e. 6 seconds. -/
def idleCheckIntervalSeconds : Nat := 6

/-- The state of the `start` loop (lines 288-302): the shared store, the
current wall-clock time and the idle deadline, in seconds. -/
structure LoopState where
  store : Store
  now : Nat
  endIdle : Nat
deriving DecidableEq

/-- Lines 288-290: initial loop state, with
`end_idle_time = now + max_idle_minutes * 60`. -/
def initLoop (maxIdleMinutes : Nat) (s : Store) (t : Nat) : LoopState :=
  { store := s, now := t, endIdle := t + maxIdleMinutes * 60 }

/-- Line 292: the `while` condition `num_queued > 0 or now < end_idle_time`. -/
def loopGuard (numQueued now endIdle : Nat) : Bool :=
  decide (0 < numQueued) || decide (now < endIdle)

/-- Lines 293-302: one iteration of the `start` loop body. When a queued
job exists the worker pulls and processes it (taking `dur` seconds) and
then resets the idle deadline to the new time plus the idle budget,
whatever the job's outcome was; otherwise it sleeps for the poll interval. -/
def workerStep (maxIdleMinutes maxFailures : Nat) (host : String)
    (run : String → RunResult) (dur : Nat) (st : LoopState) : LoopState :=
  if 0 < countQueued st.store then
    let s2 := pullAndProcess maxFailures host run st.store
    let t2 := st.now + dur
    { store := s2, now := t2, endIdle := t2 + maxIdleMinutes * 60 }
  else
    { st with now := st.now + idleCheckIntervalSeconds }

/-- The `start` loop (lines 292-302), run with explicit fuel: returns the
final state and the number of iterations executed. The loop body runs only
while `loopGuard` holds, so a run that stops short of its fuel stopped
because the guard became false. -/
def workerLoop (maxIdleMinutes maxFailures : Nat) (host : String)
    (run : String → RunResult) (dur fuel : Nat) (st : LoopState) :
    LoopState × Nat :=
  match fuel with
  | 0 => (st, 0)
  | Nat.succ f =>
    if loopGuard (countQueued st.store) st.now st.endIdle then
      let p := workerLoop maxIdleMinutes maxFailures host run dur f
        (workerStep maxIdleMinutes maxFailures host run dur st)
      (p.1, p.2 + 1)
    else (st, 0)

/-- Line 95 as executed with the row fetched at lines 77-79: the claim
write for a previously fetched job `j`. -/
def claimWrite (s : Store) (j : Job) (host : String) : Store :=
  claimUpdate s j.job_id (j.tries + 1) host

/-- Two worker processes A and B running the claim section of
`_pull_and_process` concurrently, under the interleaving
A-SELECT, B-SELECT, A-UPDATE, B-UPDATE. The SELECT (lines 77-79) and the
UPDATE (line 95) are separate SQL statements on autocommit connections with
no transaction spanning them and no status re-check in the UPDATE's WHERE
clause, so this schedule is a legal execution: B's SELECT runs before A's
UPDATE commits and therefore reads the pre-claim store. Returns the job id
each worker claimed and the final store. -/
def racedClaim (s : Store) (hostA hostB : String) :
    Option Nat × Option Nat × Store :=
  match fetchQueued s with
  | none => (none, none, s)
  | some jA =>
    match fetchQueued s with
    | none => (some jA.job_id, none, claimWrite s jA hostA)
    | some jB =>
      let s1 := claimWrite s jA hostA
      let s2 := claimWrite s1 jB hostB
      (some jA.job_id, some jB.job_id, s2)

lemma getElem?_updateStatus (s : Store) (id : Nat) (st : Status) (i : Nat) :
    (updateStatus s id st)[i]? =
      s[i]?.map (fun a => if a.job_id = id then { a with status := st } else a) := by
  simp [updateStatus]

lemma pullAndProcessT_exhausted (maxFailures : Nat) (host : String)
    (run : String → RunResult) (s : Store) (j : Job)
    (hj : fetchQueued s = some j) (hge : maxFailures ≤ j.tries) :
    pullAndProcessT maxFailures host run s
      = (updateStatus s j.job_id Status.failed, [Event.markFailed j.job_id]) := by
  unfold pullAndProcessT
  rw [hj]
  simp [hge]

/-- C1: when the fetched QUEUED job's `tries` count has already reached the
configured max-failures threshold, `_pull_and_process` converts that job to
FAILED immediately: its event trace is exactly the single FAILED write, so
the command is never executed and no further events are emitted, and every
row carrying that job's id ends with status FAILED. -/
theorem claim_exhausted_marks_failed_without_running
    (maxFailures : Nat) (host : String) (run : String → RunResult) (s : Store)
    (j : Job) (hj : fetchQueued s = some j) (hge : maxFailures ≤ j.tries) :
    pullAndProcessT maxFailures host run s
      = (updateStatus s j.job_id Status.failed, [Event.markFailed j.job_id]) ∧
    ∀ j' ∈ pullAndProcess maxFailures host run s,
      j'.job_id = j.job_id → j'.status = Status.failed := by
  have h1 := pullAndProcessT_exhausted maxFailures host run s j hj hge
  refine ⟨h1, ?_⟩
  intro j' hmem hid
  rw [pullAndProcess, h1] at hmem
  simp only [updateStatus, List.mem_map] at hmem
  obtain ⟨a, _, heq⟩ := hmem
  by_cases hida : a.job_id = j.job_id
  · rw [if_pos hida] at heq
    rw [← heq]
  · rw [if_neg hida] at heq
    rw [← heq] at hid
    exact absurd hid hida

/-- C1 witness: a store holding one QUEUED job with tries 2 and threshold 2;
the operation writes FAILED for job 1 and emits exactly that one event. -/
theorem claim_exhausted_marks_failed_without_running_witness :
    fetchQueued [⟨1, "false", Status.queued, 2, none⟩]
      = some ⟨1, "false", Status.queued, 2, none⟩ ∧
    (2 : Nat) ≤ 2 ∧
    pullAndProcessT 2 "h:0" (fun _ => RunResult.exit 1)
        [⟨1, "false", Status.queued, 2, none⟩]
      = (updateStatus [⟨1, "false", Status.queued, 2, none⟩] 1 Status.failed,
         [Event.markFailed 1]) := by
  refine ⟨by decide, by decide, ?_⟩
  exact (claim_exhausted_marks_failed_without_running 2 "h:0"
    (fun _ => RunResult.exit 1) [⟨1, "false", Status.queued, 2, none⟩]
    ⟨1, "false", Status.queued, 2, none⟩ (by decide) (by decide)).1

/-- C10: on the retry-exhaustion path only the fetched job's status field is
written: every row with that job's id becomes the original row with status
replaced by FAILED (so tries is not incremented and host is not stamped),
every row with a different id is completely unchanged, and the event trace
holds no claim event, so the job never holds PROCESSING status. -/
theorem exhausted_path_writes_only_status
    (maxFailures : Nat) (host : String) (run : String → RunResult) (s : Store)
    (j : Job) (hj : fetchQueued s = some j) (hge : maxFailures ≤ j.tries) :
    (∀ i : Nat, ∀ a : Job, s[i]? = some a →
      (a.job_id = j.job_id →
        (pullAndProcess maxFailures host run s)[i]?
          = some { a with status := Status.failed }) ∧
      (a.job_id ≠ j.job_id →
        (pullAndProcess maxFailures host run s)[i]? = some a)) ∧
    (pullAndProcessT maxFailures host run s).2 = [Event.markFailed j.job_id] := by
  have h1 := pullAndProcessT_exhausted maxFailures host run s j hj hge
  constructor
  · intro i a ha
    have hup : (pullAndProcess maxFailures host run s)[i]?
        = some (if a.job_id = j.job_id then { a with status := Status.failed } else a) := by
      rw [pullAndProcess, h1, getElem?_updateStatus, ha]
      rfl
    constructor
    · intro hid
      rw [hup, if_pos hid]
    · intro hid
      rw [hup, if_neg hid]
  · rw [h1]

/-- C10 witness: a two-job store where job 1 is QUEUED with exhausted tries;
job 1's row keeps its tries and host and only gains status FAILED, and job
2's row is untouched. -/
theorem exhausted_path_writes_only_status_witness :
    fetchQueued [⟨1, "false", Status.queued, 3, some "old:1"⟩,
                 ⟨2, "true", Status.done, 1, none⟩]
      = some ⟨1, "false", Status.queued, 3, some "old:1"⟩ ∧
    (3 : Nat) ≤ 3 ∧
    (pullAndProcess 3 "h:0" (fun _ => RunResult.exit 0)
        [⟨1, "false", Status.queued, 3, some "old:1"⟩,
         ⟨2, "true", Status.done, 1, none⟩])[0]?
      = some ⟨1, "false", Status.failed, 3, some "old:1"⟩ ∧
    (pullAndProcess 3 "h:0" (fun _ => RunResult.exit 0)
        [⟨1, "false", Status.queued, 3, some "old:1"⟩,
         ⟨2, "true", Status.done, 1, none⟩])[1]?
      = some ⟨2, "true", Status.done, 1, none⟩ := by
  have h := exhausted_path_writes_only_status 3 "h:0" (fun _ => RunResult.exit 0)
    [⟨1, "false", Status.queued, 3, some "old:1"⟩, ⟨2, "true", Status.done, 1, none⟩]
    ⟨1, "false", Status.queued, 3, some "old:1"⟩ (by decide) (by decide)
  refine ⟨by decide, by decide, ?_, ?_⟩
  · exact (h.1 0 ⟨1, "false", Status.queued, 3, some "old:1"⟩ (by decide)).1 (by decide)
  · exact (h.1 1 ⟨2, "true", Status.done, 1, none⟩ (by decide)).2 (by decide)

lemma getElem?_claimUpdate (s : Store) (id newTries : Nat) (h : String) (i : Nat) :
    (claimUpdate s id newTries h)[i]? =
      s[i]?.map (fun a =>
        if a.job_id = id then
          { a with status := Status.processing, tries := newTries, host := some h }
        else a) := by
  simp [claimUpdate]

lemma pullAndProcessT_run (maxFailures : Nat) (host : String)
    (run : String → RunResult) (s : Store) (j : Job)
    (hj : fetchQueued s = some j) (hlt : j.tries < maxFailures) :
    pullAndProcessT maxFailures host run s
      = (updateStatus (claimUpdate s j.job_id (j.tries + 1) host) j.job_id
           (if run j.cmd = RunResult.exit 0 then Status.done else Status.queued),
         [Event.claimed j.job_id (j.tries + 1) host, Event.ran j.cmd (run j.cmd),
          if run j.cmd = RunResult.exit 0 then Event.markDone j.job_id
          else Event.requeued j.job_id]) := by
  unfold pullAndProcessT
  rw [hj]
  simp only [if_neg (Nat.not_le.mpr hlt)]
  by_cases hr : run j.cmd = RunResult.exit 0 <;> simp [hr]

/-- C2: for a claimed and executed job (fetched QUEUED with tries below the
threshold), exit code 0 turns its row into status DONE, and any non-zero
exit code or an OS-level launch failure turns it back into status QUEUED;
in every outcome the row keeps the already-incremented tries count
`j.tries + 1` and the freshly stamped host. -/
theorem executed_outcome_transition
    (maxFailures : Nat) (host : String) (run : String → RunResult) (s : Store)
    (j : Job) (hj : fetchQueued s = some j) (hlt : j.tries < maxFailures)
    (i : Nat) (a : Job) (ha : s[i]? = some a) (hid : a.job_id = j.job_id) :
    (run j.cmd = RunResult.exit 0 →
      (pullAndProcess maxFailures host run s)[i]?
        = some { a with status := Status.done, tries := j.tries + 1,
                        host := some host }) ∧
    (∀ rc : Int, run j.cmd = RunResult.exit rc → rc ≠ 0 →
      (pullAndProcess maxFailures host run s)[i]?
        = some { a with status := Status.queued, tries := j.tries + 1,
                        host := some host }) ∧
    (run j.cmd = RunResult.oserror →
      (pullAndProcess maxFailures host run s)[i]?
        = some { a with status := Status.queued, tries := j.tries + 1,
                        host := some host }) := by
  have key : ∀ st : Status,
      (updateStatus (claimUpdate s j.job_id (j.tries + 1) host) j.job_id st)[i]?
        = some { a with status := st, tries := j.tries + 1, host := some host } := by
    intro st
    rw [getElem?_updateStatus, getElem?_claimUpdate, ha]
    simp [hid]
  refine ⟨?_, ?_, ?_⟩
  · intro hr
    rw [pullAndProcess, pullAndProcessT_run maxFailures host run s j hj hlt]
    rw [if_pos hr]
    exact key Status.done
  · intro rc hr hrc
    have hne : ¬ run j.cmd = RunResult.exit 0 := by
      intro h0
      rw [hr] at h0
      exact hrc (by injection h0)
    rw [pullAndProcess, pullAndProcessT_run maxFailures host run s j hj hlt]
    rw [if_neg hne]
    exact key Status.queued
  · intro hr
    have hne : ¬ run j.cmd = RunResult.exit 0 := by
      intro h0
      rw [hr] at h0
      exact RunResult.noConfusion h0
    rw [pullAndProcess, pullAndProcessT_run maxFailures host run s j hj hlt]
    rw [if_neg hne]
    exact key Status.queued

/-- C2 witness: a single QUEUED job with tries 0 and threshold 3, evaluated
under the three outcomes exit 0, exit 2 and launch failure. -/
theorem executed_outcome_transition_witness :
    fetchQueued [⟨1, "true", Status.queued, 0, none⟩]
      = some ⟨1, "true", Status.queued, 0, none⟩ ∧
    (0 : Nat) < 3 ∧
    (pullAndProcess 3 "h:0" (fun _ => RunResult.exit 0)
        [⟨1, "true", Status.queued, 0, none⟩])[0]?
      = some ⟨1, "true", Status.done, 1, some "h:0"⟩ ∧
    (pullAndProcess 3 "h:0" (fun _ => RunResult.exit 2)
        [⟨1, "true", Status.queued, 0, none⟩])[0]?
      = some ⟨1, "true", Status.queued, 1, some "h:0"⟩ ∧
    (pullAndProcess 3 "h:0" (fun _ => RunResult.oserror)
        [⟨1, "true", Status.queued, 0, none⟩])[0]?
      = some ⟨1, "true", Status.queued, 1, some "h:0"⟩ := by
  refine ⟨by decide, by decide, ?_, ?_, ?_⟩
  · exact (executed_outcome_transition 3 "h:0" (fun _ => RunResult.exit 0)
      [⟨1, "true", Status.queued, 0, none⟩] ⟨1, "true", Status.queued, 0, none⟩
      (by decide) (by decide) 0 ⟨1, "true", Status.queued, 0, none⟩
      (by decide) (by decide)).1 rfl
  · exact (executed_outcome_transition 3 "h:0" (fun _ => RunResult.exit 2)
      [⟨1, "true", Status.queued, 0, none⟩] ⟨1, "true", Status.queued, 0, none⟩
      (by decide) (by decide) 0 ⟨1, "true", Status.queued, 0, none⟩
      (by decide) (by decide)).2.1 2 rfl (by decide)
  · exact (executed_outcome_transition 3 "h:0" (fun _ => RunResult.oserror)
      [⟨1, "true", Status.queued, 0, none⟩] ⟨1, "true", Status.queued, 0, none⟩
      (by decide) (by decide) 0 ⟨1, "true", Status.queued, 0, none⟩
      (by decide) (by decide)).2.2 rfl

lemma pullAndProcessT_none (maxFailures : Nat) (host : String)
    (run : String → RunResult) (s : Store) (hj : fetchQueued s = none) :
    pullAndProcessT maxFailures host run s = (s, []) := by
  unfold pullAndProcessT
  rw [hj]

lemma getElem?_claim_then_update (s : Store) (j : Job) (host : String)
    (st : Status) (i : Nat) (a : Job) (ha : s[i]? = some a) :
    (updateStatus (claimUpdate s j.job_id (j.tries + 1) host) j.job_id st)[i]?
      = some (if a.job_id = j.job_id
          then { a with status := st, tries := j.tries + 1, host := some host }
          else a) := by
  rw [getElem?_updateStatus, getElem?_claimUpdate, ha]
  by_cases hida : a.job_id = j.job_id <;> simp [hida]

lemma store_row_eq_of_nodup {s : Store} (hnd : (s.map Job.job_id).Nodup)
    {j : Job} (hj : j ∈ s) {i : Nat} {a : Job} (ha : s[i]? = some a)
    (hid : a.job_id = j.job_id) : a = j := by
  obtain ⟨k, hk, hjk⟩ := List.getElem_of_mem hj
  have hilen : i < s.length := by
    by_contra hge
    rw [List.getElem?_eq_none (Nat.le_of_not_lt hge)] at ha
    exact Option.noConfusion ha
  have hia : s[i] = a := by
    rw [List.getElem?_eq_getElem hilen] at ha
    exact Option.some.inj ha
  have hmap : (s.map Job.job_id).get ⟨i, by simpa using hilen⟩
      = (s.map Job.job_id).get ⟨k, by simpa using hk⟩ := by
    simp only [List.get_eq_getElem, List.getElem_map]
    rw [hia, hjk, hid]
  have hik : i = k :=
    congrArg Fin.val ((List.Nodup.get_inj_iff hnd).mp hmap)
  subst hik
  rw [← hia, hjk]

/-- C5: with distinct primary keys, every QUEUED → PROCESSING transition
performed by the claim write of `_pull_and_process` sets the affected row's
tries to exactly its old tries plus 1, and the operation as a whole never
decreases any row's tries count. -/
theorem tries_increment_and_monotone
    (maxFailures : Nat) (host : String) (run : String → RunResult) (s : Store)
    (hnd : (s.map Job.job_id).Nodup) (i : Nat) (a : Job) (ha : s[i]? = some a) :
    (∀ j : Job, fetchQueued s = some j →
      ∀ c : Job, (claimUpdate s j.job_id (j.tries + 1) host)[i]? = some c →
        a.status = Status.queued → c.status = Status.processing →
          c.tries = a.tries + 1) ∧
    (∀ r : Job, (pullAndProcess maxFailures host run s)[i]? = some r →
      a.tries ≤ r.tries) := by
  constructor
  · intro j hj c hc hq hp
    rw [getElem?_claimUpdate, ha] at hc
    have hc2 : (if a.job_id = j.job_id then
        { a with status := Status.processing, tries := j.tries + 1,
                 host := some host } else a) = c := Option.some.inj hc
    by_cases hida : a.job_id = j.job_id
    · have haj : a = j :=
        store_row_eq_of_nodup hnd (List.mem_of_find?_eq_some hj) ha hida
      rw [if_pos hida] at hc2
      rw [← hc2, haj]
    · rw [if_neg hida] at hc2
      rw [← hc2] at hp
      exact absurd (hq.symm.trans hp) (by decide)
  · intro r hr
    rcases hfq : fetchQueued s with _ | j
    · rw [pullAndProcess, pullAndProcessT_none maxFailures host run s hfq, ha] at hr
      rw [← Option.some.inj hr]
    · by_cases hge : maxFailures ≤ j.tries
      · rw [pullAndProcess, pullAndProcessT_exhausted maxFailures host run s j hfq hge,
            getElem?_updateStatus, ha] at hr
        have h2 : (if a.job_id = j.job_id then
            { a with status := Status.failed } else a) = r := Option.some.inj hr
        by_cases hida : a.job_id = j.job_id
        · rw [if_pos hida] at h2
          rw [← h2]
        · rw [if_neg hida] at h2
          rw [← h2]
      · have hlt : j.tries < maxFailures := Nat.lt_of_not_le hge
        rw [pullAndProcess, pullAndProcessT_run maxFailures host run s j hfq hlt,
            getElem?_claim_then_update s j host _ i a ha] at hr
        have h2 := Option.some.inj hr
        by_cases hida : a.job_id = j.job_id
        · rw [if_pos hida] at h2
          have haj : a = j :=
            store_row_eq_of_nodup hnd (List.mem_of_find?_eq_some hfq) ha hida
          rw [← h2, haj]
          exact Nat.le_succ _
        · rw [if_neg hida] at h2
          rw [← h2]

/-- C5 witness: a two-job store with distinct ids; the claim write gives the
fetched job tries 1 = 0 + 1, and a full pull-and-process run leaves every
row's tries at least as large as before. -/
theorem tries_increment_and_monotone_witness :
    ([⟨1, "false", Status.queued, 0, none⟩,
      ⟨2, "true", Status.done, 4, none⟩].map Job.job_id).Nodup ∧
    ([⟨1, "false", Status.queued, 0, none⟩,
      ⟨2, "true", Status.done, 4, none⟩] : Store)[0]?
      = some ⟨1, "false", Status.queued, 0, none⟩ ∧
    fetchQueued [⟨1, "false", Status.queued, 0, none⟩,
                 ⟨2, "true", Status.done, 4, none⟩]
      = some ⟨1, "false", Status.queued, 0, none⟩ ∧
    (claimUpdate [⟨1, "false", Status.queued, 0, none⟩,
                  ⟨2, "true", Status.done, 4, none⟩] 1 1 "h:0")[0]?
      = some ⟨1, "false", Status.processing, 1, some "h:0"⟩ ∧
    (1 : Nat) = 0 + 1 ∧
    ∀ r : Job,
      (pullAndProcess 3 "h:0" (fun _ => RunResult.exit 5)
        [⟨1, "false", Status.queued, 0, none⟩,
         ⟨2, "true", Status.done, 4, none⟩])[0]? = some r → 0 ≤ r.tries := by
  refine ⟨by decide, by decide, by decide, by decide, by decide, ?_⟩
  intro r hr
  have h := (tries_increment_and_monotone 3 "h:0" (fun _ => RunResult.exit 5)
    [⟨1, "false", Status.queued, 0, none⟩, ⟨2, "true", Status.done, 4, none⟩]
    (by decide) 0 ⟨1, "false", Status.queued, 0, none⟩ (by decide)).2 r hr
  exact h

/-- C6: the bulk status rewrite with a non-empty filter changes exactly the
rows whose current status is in the filter — those get the target status
and tries 0 while keeping their id, command and host — and every row whose
status is outside the filter is completely unchanged; the store's length is
preserved. -/
theorem bulk_rewrite_frame (filter : List Status) (mode : Status) (s : Store)
    (_hne : filter ≠ []) (i : Nat) (a : Job) (ha : s[i]? = some a) :
    (changeStatusUpdate filter mode s).length = s.length ∧
    (a.status ∈ filter →
      (changeStatusUpdate filter mode s)[i]?
        = some { a with status := mode, tries := 0 }) ∧
    (a.status ∉ filter → (changeStatusUpdate filter mode s)[i]? = some a) := by
  refine ⟨by simp [changeStatusUpdate], ?_, ?_⟩
  · intro hmem
    simp only [changeStatusUpdate, List.getElem?_map, ha]
    simp [hmem]
  · intro hmem
    simp only [changeStatusUpdate, List.getElem?_map, ha]
    simp [hmem]

/-- C6 witness: scenario D — a store with 2 FAILED, 1 DONE and 1 QUEUED
jobs re-queued with filter {FAILED}: the two FAILED rows become QUEUED with
tries 0, the DONE and QUEUED rows are untouched. -/
theorem bulk_rewrite_frame_witness :
    ([Status.failed] : List Status) ≠ [] ∧
    (changeStatusUpdate [Status.failed] Status.queued
        [⟨1, "a", Status.failed, 3, none⟩, ⟨2, "b", Status.failed, 2, none⟩,
         ⟨3, "c", Status.done, 1, none⟩, ⟨4, "d", Status.queued, 0, none⟩])[0]?
      = some ⟨1, "a", Status.queued, 0, none⟩ ∧
    (changeStatusUpdate [Status.failed] Status.queued
        [⟨1, "a", Status.failed, 3, none⟩, ⟨2, "b", Status.failed, 2, none⟩,
         ⟨3, "c", Status.done, 1, none⟩, ⟨4, "d", Status.queued, 0, none⟩])[1]?
      = some ⟨2, "b", Status.queued, 0, none⟩ ∧
    (changeStatusUpdate [Status.failed] Status.queued
        [⟨1, "a", Status.failed, 3, none⟩, ⟨2, "b", Status.failed, 2, none⟩,
         ⟨3, "c", Status.done, 1, none⟩, ⟨4, "d", Status.queued, 0, none⟩])[2]?
      = some ⟨3, "c", Status.done, 1, none⟩ ∧
    (changeStatusUpdate [Status.failed] Status.queued
        [⟨1, "a", Status.failed, 3, none⟩, ⟨2, "b", Status.failed, 2, none⟩,
         ⟨3, "c", Status.done, 1, none⟩, ⟨4, "d", Status.queued, 0, none⟩])[3]?
      = some ⟨4, "d", Status.queued, 0, none⟩ := by
  refine ⟨by decide, ?_, ?_, ?_, ?_⟩
  · exact (bulk_rewrite_frame [Status.failed] Status.queued
      [⟨1, "a", Status.failed, 3, none⟩, ⟨2, "b", Status.failed, 2, none⟩,
       ⟨3, "c", Status.done, 1, none⟩, ⟨4, "d", Status.queued, 0, none⟩]
      (by decide) 0 ⟨1, "a", Status.failed, 3, none⟩ (by decide)).2.1 (by decide)
  · exact (bulk_rewrite_frame [Status.failed] Status.queued
      [⟨1, "a", Status.failed, 3, none⟩, ⟨2, "b", Status.failed, 2, none⟩,
       ⟨3, "c", Status.done, 1, none⟩, ⟨4, "d", Status.queued, 0, none⟩]
      (by decide) 1 ⟨2, "b", Status.failed, 2, none⟩ (by decide)).2.1 (by decide)
  · exact (bulk_rewrite_frame [Status.failed] Status.queued
      [⟨1, "a", Status.failed, 3, none⟩, ⟨2, "b", Status.failed, 2, none⟩,
       ⟨3, "c", Status.done, 1, none⟩, ⟨4, "d", Status.queued, 0, none⟩]
      (by decide) 2 ⟨3, "c", Status.done, 1, none⟩ (by decide)).2.2 (by decide)
  · exact (bulk_rewrite_frame [Status.failed] Status.queued
      [⟨1, "a", Status.failed, 3, none⟩, ⟨2, "b", Status.failed, 2, none⟩,
       ⟨3, "c", Status.done, 1, none⟩, ⟨4, "d", Status.queued, 0, none⟩]
      (by decide) 3 ⟨4, "d", Status.queued, 0, none⟩ (by decide)).2.2 (by decide)

/-- C7: the ALL fallback of `_change_status`'s selector chain is reached
only through the `queued` attribute. The `hold` subcommand defines all six
filter flags, so with none set its selector is ALL; but the `queue`
subcommand never defines a `--queued` argument, so invoking it with no
filter flag makes the chain read a missing attribute — an `AttributeError`
(modelled as `none`) instead of the claimed default to all five statuses. -/
theorem queue_command_selector_crashes :
    computeSelector queueCmdNoFlags = none ∧
    computeSelector holdCmdNoFlags = some ALL := by
  decide

/-- C8 counterexample: the answer `Yes` is a string other than `yes`, yet
`_change_status` — which tests `confirm.lower() == 'yes'` — does mutate the
store on it: its single FAILED row does not stay unchanged. -/
theorem confirmation_other_than_yes_mutates :
    ("Yes" : String) ≠ "yes" ∧
    changeStatus "Yes" [Status.failed] Status.queued
        [⟨1, "c", Status.failed, 2, none⟩]
      ≠ [⟨1, "c", Status.failed, 2, none⟩] := by
  decide

/-- C8 amended: the bulk rewrite mutates the store only when the
confirmation answer lowercases to `yes`; for any answer whose lowercasing
is anything other than `yes`, no job row (status or tries) is modified. -/
theorem confirmation_gate_requires_yes (answer : String) (filter : List Status)
    (mode : Status) (s : Store) (h : pyLower answer ≠ "yes") :
    changeStatus answer filter mode s = s := by
  rw [changeStatus, if_neg h]

/-- C8 amended witness: the answer `no` leaves a FAILED row untouched. -/
theorem confirmation_gate_requires_yes_witness :
    pyLower "no" ≠ "yes" ∧
    changeStatus "no" [Status.failed] Status.queued
        [⟨1, "c", Status.failed, 2, none⟩]
      = [⟨1, "c", Status.failed, 2, none⟩] :=
  ⟨by decide, confirmation_gate_requires_yes "no" [Status.failed] Status.queued
      [⟨1, "c", Status.failed, 2, none⟩] (by decide)⟩

/-- C3: the claim section of `_pull_and_process` is not atomic. Its SELECT
(lines 77-79) and UPDATE (line 95) are separate statements with no
transaction spanning them and no status re-check in the UPDATE, so under
the legal interleaving A-SELECT, B-SELECT, A-UPDATE, B-UPDATE on a store
with a single QUEUED job, both workers observe and claim job 1: two
concurrent claim operations return the same job id. -/
theorem raced_claims_return_same_job :
    (racedClaim [⟨1, "false", Status.queued, 0, none⟩] "hostA:0" "hostB:0").1
      = some 1 ∧
    (racedClaim [⟨1, "false", Status.queued, 0, none⟩] "hostA:0" "hostB:0").2.1
      = some 1 := by
  decide

lemma workerLoop_succ (maxIdleMinutes maxFailures : Nat) (host : String)
    (run : String → RunResult) (dur f : Nat) (st : LoopState) :
    workerLoop maxIdleMinutes maxFailures host run dur (f + 1) st
      = if loopGuard (countQueued st.store) st.now st.endIdle then
          ((workerLoop maxIdleMinutes maxFailures host run dur f
              (workerStep maxIdleMinutes maxFailures host run dur st)).1,
           (workerLoop maxIdleMinutes maxFailures host run dur f
              (workerStep maxIdleMinutes maxFailures host run dur st)).2 + 1)
        else (st, 0) := by
  rfl

/-- C4: the `start` loop's guard fails exactly when no QUEUED job exists and
the current time has reached the idle deadline; an iteration that found a
queued job resets the idle deadline to the post-iteration time plus the idle
budget regardless of the job's outcome (any `run`); whenever the loop stops
before exhausting its fuel, the final state has no queued job and a reached
deadline; and with `max_idle_minutes = 0` and no queued jobs the loop
terminates immediately, running zero iterations. -/
theorem worker_loop_idle_termination (maxIdleMinutes maxFailures dur : Nat)
    (host : String) (run : String → RunResult) :
    (∀ nq now endIdle : Nat,
      loopGuard nq now endIdle = false ↔ nq = 0 ∧ endIdle ≤ now) ∧
    (∀ st : LoopState, 0 < countQueued st.store →
      (workerStep maxIdleMinutes maxFailures host run dur st).endIdle
        = (workerStep maxIdleMinutes maxFailures host run dur st).now
            + maxIdleMinutes * 60) ∧
    (∀ fuel : Nat, ∀ st : LoopState,
      (workerLoop maxIdleMinutes maxFailures host run dur fuel st).2 < fuel →
      countQueued
          (workerLoop maxIdleMinutes maxFailures host run dur fuel st).1.store
        = 0 ∧
      (workerLoop maxIdleMinutes maxFailures host run dur fuel st).1.endIdle
        ≤ (workerLoop maxIdleMinutes maxFailures host run dur fuel st).1.now) ∧
    (∀ (s : Store) (t fuel : Nat), countQueued s = 0 →
      workerLoop 0 maxFailures host run dur fuel (initLoop 0 s t)
        = (initLoop 0 s t, 0)) := by
  refine ⟨?_, ?_, ?_, ?_⟩
  · intro nq now endIdle
    simp only [loopGuard, Bool.or_eq_false_iff, decide_eq_false_iff_not]
    omega
  · intro st h
    simp [workerStep, h]
  · intro fuel
    induction fuel with
    | zero =>
      intro st h
      exact absurd h (Nat.lt_irrefl 0)
    | succ f ih =>
      intro st h
      by_cases hg : loopGuard (countQueued st.store) st.now st.endIdle = true
      · rw [workerLoop_succ, if_pos hg] at h ⊢
        exact ih (workerStep maxIdleMinutes maxFailures host run dur st)
          (Nat.lt_of_succ_lt_succ h)
      · rw [workerLoop_succ, if_neg hg]
        rw [Bool.not_eq_true] at hg
        simp only [loopGuard, Bool.or_eq_false_iff, decide_eq_false_iff_not] at hg
        refine ⟨?_, ?_⟩
        · show countQueued st.store = 0
          omega
        · show st.endIdle ≤ st.now
          omega
  · intro s t fuel h0
    cases fuel with
    | zero => rfl
    | succ f =>
      have hne : ¬ (loopGuard (countQueued (initLoop 0 s t).store)
          (initLoop 0 s t).now (initLoop 0 s t).endIdle = true) := by
        simp [initLoop, loopGuard, h0]
      rw [workerLoop_succ, if_neg hne]

/-- C4 witness: a store whose only job is DONE, idle budget 0: the loop
exits at once with zero iterations executed. -/
theorem worker_loop_idle_termination_witness :
    countQueued [⟨1, "c", Status.done, 1, none⟩] = 0 ∧
    workerLoop 0 3 "h:0" (fun _ => RunResult.exit 0) 1 7
        (initLoop 0 [⟨1, "c", Status.done, 1, none⟩] 100)
      = (initLoop 0 [⟨1, "c", Status.done, 1, none⟩] 100, 0) :=
  ⟨by decide,
   (worker_loop_idle_termination 0 3 1 "h:0" (fun _ => RunResult.exit 0)).2.2.2
     [⟨1, "c", Status.done, 1, none⟩] 100 7 (by decide)⟩

lemma fetchQueued_lowest :
    ∀ s : Store, List.Pairwise (fun x y => x.job_id < y.job_id) s →
    ∀ j : Job, fetchQueued s = some j →
    j ∈ s ∧ j.status = Status.queued ∧
    ∀ x ∈ s, x.status = Status.queued → j.job_id ≤ x.job_id := by
  intro s
  induction s with
  | nil =>
    intro _ j hj
    exact absurd hj (by simp [fetchQueued])
  | cons a l ih =>
    intro hs j hj
    rw [fetchQueued] at hj
    by_cases hq : a.status = Status.queued
    · rw [List.find?_cons_of_pos _ (by simp [hq])] at hj
      obtain rfl := Option.some.inj hj
      refine ⟨List.mem_cons_self a l, hq, ?_⟩
      intro x hx _
      rcases List.mem_cons.mp hx with rfl | hxl
      · exact Nat.le_refl _
      · exact Nat.le_of_lt (List.rel_of_pairwise_cons hs hxl)
    · rw [List.find?_cons_of_neg _ (by simp [hq])] at hj
      obtain ⟨hmem, hqj, hmin⟩ := ih hs.of_cons j hj
      refine ⟨List.mem_cons_of_mem a hmem, hqj, ?_⟩
      intro x hx hxq
      rcases List.mem_cons.mp hx with rfl | hxl
      · exact absurd hxq hq
      · exact hmin x hxl hxq

/-- C9: with rows in strictly increasing primary-key order — the order the
table scan yields them — the claim fetch is deterministic (any two results
on the same store agree) and the selected row is a QUEUED row of the store
whose id is lowest among all QUEUED rows, i.e. FIFO. -/
theorem fetch_selects_lowest_id (s : Store)
    (hs : List.Pairwise (fun x y => x.job_id < y.job_id) s)
    (j : Job) (hj : fetchQueued s = some j) :
    (∀ j2 : Job, fetchQueued s = some j2 → j2 = j) ∧
    j ∈ s ∧ j.status = Status.queued ∧
    ∀ x ∈ s, x.status = Status.queued → j.job_id ≤ x.job_id := by
  refine ⟨?_, fetchQueued_lowest s hs j hj⟩
  intro j2 hj2
  rw [hj] at hj2
  exact (Option.some.inj hj2).symm

/-- C9 witness: on a store with ids 1 (DONE), 2 (QUEUED), 3 (QUEUED), the
fetch selects job 2, the lowest-id QUEUED row. -/
theorem fetch_selects_lowest_id_witness :
    List.Pairwise (fun x y => x.job_id < y.job_id)
      ([⟨1, "a", Status.done, 1, none⟩, ⟨2, "b", Status.queued, 0, none⟩,
        ⟨3, "c", Status.queued, 0, none⟩] : Store) ∧
    fetchQueued [⟨1, "a", Status.done, 1, none⟩, ⟨2, "b", Status.queued, 0, none⟩,
                 ⟨3, "c", Status.queued, 0, none⟩]
      = some ⟨2, "b", Status.queued, 0, none⟩ ∧
    (2 : Nat) ≤ 3 := by
  refine ⟨by decide, by decide, ?_⟩
  exact (fetch_selects_lowest_id
    [⟨1, "a", Status.done, 1, none⟩, ⟨2, "b", Status.queued, 0, none⟩,
     ⟨3, "c", Status.queued, 0, none⟩] (by decide)
    ⟨2, "b", Status.queued, 0, none⟩ (by decide)).2.2.2
    ⟨3, "c", Status.queued, 0, none⟩ (by decide) (by decide)

end NebuLight
